import Mathlib

/-!
Formal model of the terraform-provider-neo4j core: the property codec,
the Node and Relationship reconcilers, provider registration and the
connection bootstrap, together with theorems checking the repository's
specification against this model.  Every definition is translated from
the Go source (internal/provider); backend query semantics follow the
query texts embedded in the reconcilers.
-/

/-- A Terraform framework attribute value: null, unknown, or a known
value.  Models the nullability of `types.String`, `types.List` and
`types.Map` from the plugin framework. -/
inductive Attr (α : Type) where
  | null
  | unknown
  | value (a : α)
deriving DecidableEq, Repr

/-- Framework `IsNull`. -/
def Attr.IsNull {α : Type} : Attr α → Bool
  | .null => true
  | _ => false

/-- Framework `IsUnknown`. -/
def Attr.IsUnknown {α : Type} : Attr α → Bool
  | .unknown => true
  | _ => false

/-- Framework `ValueString`: the zero value (empty string) for null and
unknown attribute values. -/
def Attr.valueString : Attr String → String
  | .value s => s
  | _ => ""

/-- Diagnostics: a list of (summary, detail) errors, appended to by
`AddError`.  `HasError` is non-emptiness, since only errors are added. -/
abbrev Diags := List (String × String)

/-- Model of a Go `float64` produced by `strconv.ParseFloat` on a finite
decimal literal: the exact decimal value `(-1)^neg * mant * 10^exp`,
with the mantissa kept free of trailing zeros.  IEEE-754 rounding is
abstracted to the exact decimal: on the short literals this provider
handles, Go's shortest round-trip formatting prints the stored decimal
back, which `formatGoFloat` below implements. -/
structure GoFloat where
  neg : Bool
  mant : Nat
  exp : Int
deriving DecidableEq, Repr

/-- Move trailing decimal zeros of the mantissa into the exponent.  The
first argument is fuel; `m` itself always suffices since each step
divides the mantissa by 10. -/
def stripZerosAux : Nat → Nat → Int → Nat × Int
  | 0, m, e => (m, e)
  | fuel + 1, m, e =>
    if m ≠ 0 ∧ m % 10 = 0 then stripZerosAux fuel (m / 10) (e + 1) else (m, e)

/-- Normalized `GoFloat` from a parsed sign, mantissa and exponent. -/
def mkGoFloat (neg : Bool) (m : Nat) (e : Int) : GoFloat :=
  let p := stripZerosAux m m e
  if p.1 = 0 then { neg := neg, mant := 0, exp := 0 }
  else { neg := neg, mant := p.1, exp := p.2 }

/-- Numeric value of a decimal digit character. -/
def digitVal (c : Char) : Nat := c.toNat - 48

/-- Value of a digit string, most significant first. -/
def digitsVal : List Char → Nat → Nat
  | [], acc => acc
  | c :: cs, acc => digitsVal cs (acc * 10 + digitVal c)

/-- All characters are decimal digits. -/
def allDigits (cs : List Char) : Bool := cs.all Char.isDigit

/-- Strip an optional leading sign, returning whether it was `-`. -/
def splitSign : List Char → Bool × List Char
  | '-' :: cs => (true, cs)
  | '+' :: cs => (false, cs)
  | cs => (false, cs)

/-- Longest decimal-digit prefix and the remaining characters. -/
def splitDigits : List Char → List Char × List Char
  | [] => ([], [])
  | c :: cs =>
    if c.isDigit then
      let p := splitDigits cs
      (c :: p.1, p.2)
    else ([], c :: cs)

/-- Model of Go `strconv.ParseInt(s, 10, 64)`: an optional sign followed
by one or more decimal digits, with the result inside the signed 64-bit
range.  `none` models a non-nil error (syntax or range), after which the
caller falls through to the float parse. -/
def parseInt (s : String) : Option Int :=
  let p := splitSign s.data
  if p.2.isEmpty || !allDigits p.2 then none
  else
    let n : Int := (digitsVal p.2 0 : Nat)
    let v : Int := if p.1 then -n else n
    if -(2 ^ 63) ≤ v ∧ v ≤ 2 ^ 63 - 1 then some v else none

/-- Exponent suffix of a float literal (the part after `e` / `E`). -/
def parseFloatExp (m : Nat) (base : Int) (cs : List Char) : Option (Nat × Int) :=
  let p := splitSign cs
  if p.2.isEmpty || !allDigits p.2 then none
  else
    let e : Int := (digitsVal p.2 0 : Nat)
    some (m, base + if p.1 then -e else e)

/-- Model of Go `strconv.ParseFloat(s, 64)` on finite decimal literals:
optional sign, digits with an optional fraction, optional decimal
exponent.  The special forms (inf/nan, hexadecimal floats) do not occur
in this provider's data and are modelled as parse failures. -/
def parseFloat (s : String) : Option GoFloat :=
  let sp := splitSign s.data
  let core : Option (Nat × Int) :=
    let ipr := splitDigits sp.2
    match ipr.2 with
    | [] => if ipr.1.isEmpty then none else some (digitsVal ipr.1 0, 0)
    | '.' :: rest2 =>
      let fpr := splitDigits rest2
      if ipr.1.isEmpty && fpr.1.isEmpty then none
      else
        match fpr.2 with
        | [] => some (digitsVal (ipr.1 ++ fpr.1) 0, -(fpr.1.length : Int))
        | c :: rest4 =>
          if c = 'e' ∨ c = 'E' then
            parseFloatExp (digitsVal (ipr.1 ++ fpr.1) 0) (-(fpr.1.length : Int)) rest4
          else none
    | c :: rest2 =>
      if (c = 'e' ∨ c = 'E') ∧ ¬ ipr.1.isEmpty then
        parseFloatExp (digitsVal ipr.1 0) 0 rest2
      else none
  match core with
  | none => none
  | some me => some (mkGoFloat sp.1 me.1 me.2)

/-- A Go `any` scalar as produced by `readProperties` and as returned by
the database driver for stored properties: `int64`, `float64` or
`string`. -/
inductive Scalar where
  | int (n : Int)
  | float (f : GoFloat)
  | str (s : String)
deriving DecidableEq, Repr

/-- The value-typing step of `readProperties` (node_resource.go:84-90):
try the integer parse, then the float parse, else keep the string. -/
def parseScalar (s : String) : Scalar :=
  match parseInt s with
  | some n => .int n
  | none =>
    match parseFloat s with
    | some f => .float f
    | none => .str s

/-- Two-digit-minimum exponent field of Go scientific notation. -/
def padExp (e : Nat) : String := if e < 10 then "0" ++ Nat.repr e else Nat.repr e

/-- Go `strconv.FormatFloat(f, g, -1, 64)` (used by `fmt.Sprintf` with
the `v` verb) on the exact-decimal floats above: plain decimal notation,
switching to scientific when the decimal exponent is below -4 or at
least 21. -/
def formatGoFloat (f : GoFloat) : String :=
  let sign := if f.neg then "-" else ""
  if f.mant = 0 then sign ++ "0"
  else
    let ds := Nat.repr f.mant
    let bigE : Int := (ds.length : Int) - 1 + f.exp
    if bigE < -4 ∨ 21 ≤ bigE then
      let frac := ds.drop 1
      let mantPart := if frac.isEmpty then ds.take 1 else ds.take 1 ++ "." ++ frac
      let esign := if bigE < 0 then "-" else "+"
      sign ++ mantPart ++ "e" ++ esign ++ padExp bigE.natAbs
    else if 0 ≤ f.exp then
      sign ++ ds ++ String.mk (List.replicate f.exp.toNat '0')
    else
      let fr := f.exp.natAbs
      if fr < ds.length then
        sign ++ ds.take (ds.length - fr) ++ "." ++ ds.drop (ds.length - fr)
      else
        sign ++ "0." ++ String.mk (List.replicate (fr - ds.length) '0') ++ ds

/-- Go `fmt.Sprintf` with the `v` verb on the stored scalars, as used to
re-stringify property values on read. -/
def sprintfScalar : Scalar → String
  | .int n => toString n
  | .float f => formatGoFloat f
  | .str s => s

/-- A declared string value is canonical when re-stringifying its parsed
scalar yields the original string back (for example "100", "1.2" and
"qux" are canonical; "01", "+5" and "1.20" are not). -/
def canonicalValue (s : String) : Bool := sprintfScalar (parseScalar s) == s

/-- A property-map attribute: string keys to string-typed elements. -/
abbrev PropsAttr := Attr (List (String × Attr String))

/-- An encoded property map handed to or received from the backend
driver (Go `map[string]any`), with unique keys, as an association
list. -/
abbrev PropList := List (String × Scalar)

/-- The loop body of `readProperties` (node_resource.go:75-91): null or
unknown element values add an error diagnostic; the element string is
typed by `parseScalar`. -/
def readPropertiesStep (acc : PropList × Diags) (kv : String × Attr String) :
    PropList × Diags :=
  let d1 : Diags :=
    match kv.2 with
    | .null => acc.2 ++ [("key is null", kv.1)]
    | _ => acc.2
  let d2 : Diags :=
    match kv.2 with
    | .unknown => d1 ++ [("key is unknown", kv.1)]
    | _ => d1
  (acc.1 ++ [(kv.1, parseScalar kv.2.valueString)], d2)

/-- Translation of `readProperties` (node_resource.go:66-100).  Note:
the source checks for the reserved key on the `elements` map *before*
`ElementsAs` populates it, i.e. on a freshly-made empty map, so that
check can never add its diagnostic; the translation keeps the check on
the empty map.  `ElementsAs` of a string-typed map adds no diagnostics.
A null or unknown map yields a nil encoded map and no diagnostics; any
error diagnostic nils the encoded map. -/
def readProperties (props : PropsAttr) : Option PropList × Diags :=
  match props with
  | .null => (none, [])
  | .unknown => (none, [])
  | .value elems =>
    let preElements : List (String × Attr String) := []
    let diags0 : Diags :=
      if preElements.any (fun kv => kv.1 == "uuid") then
        [("reserved key is set as property", "uuid is reserved")]
      else []
    if diags0.isEmpty then
      let r := elems.foldl readPropertiesStep ([], diags0)
      if r.2.isEmpty then (some r.1, r.2) else (none, r.2)
    else (none, diags0)

/-- The loop body of `NodeResourceModel.ReadLabels`
(node_resource.go:50-60): unknown or null elements add an error
diagnostic and leave the zero value in place. -/
def readLabelsStep (acc : List String × Diags × Nat) (v : Attr String) :
    List String × Diags × Nat :=
  match v with
  | .unknown =>
    (acc.1 ++ [""], acc.2.1 ++ [("element is unknown", "label " ++ toString acc.2.2)],
      acc.2.2 + 1)
  | .null =>
    (acc.1 ++ [""], acc.2.1 ++ [("element is null", "label " ++ toString acc.2.2)],
      acc.2.2 + 1)
  | .value s => (acc.1 ++ [s], acc.2.1, acc.2.2 + 1)

/-- Translation of `NodeResourceModel.ReadLabels`
(node_resource.go:44-64): nil output and no diagnostics for a null or
unknown list, else the element strings. -/
def ReadLabels (labels : Attr (List (Attr String))) : List String × Diags :=
  match labels with
  | .null => ([], [])
  | .unknown => ([], [])
  | .value elems =>
    let r := elems.foldl readLabelsStep ([], [], 0)
    (r.1, r.2.1)

/-- A stored vertex: backend-internal id, labels, property map. -/
structure DBNode where
  nid : Nat
  labels : List String
  props : PropList
deriving DecidableEq, Repr

/-- A stored directed edge: backend-internal id, endpoint internal ids,
relationship type, property map. -/
structure DBEdge where
  eid : Nat
  src : Nat
  dst : Nat
  typ : String
  props : PropList
deriving DecidableEq, Repr

/-- The backend property graph. -/
structure Graph where
  nodes : List DBNode
  edges : List DBEdge
  nextId : Nat
deriving DecidableEq, Repr

/-- Property lookup in a stored map. -/
def getProp (ps : PropList) (k : String) : Option Scalar :=
  (ps.find? (fun kv => kv.1 == k)).map (fun kv => kv.2)

/-- Cypher `SET x.k = v`: replace the binding if present, else append. -/
def insertProp (ps : PropList) (k : String) (v : Scalar) : PropList :=
  if ps.any (fun kv => kv.1 == k) then
    ps.map (fun kv => if kv.1 == k then (kv.1, v) else kv)
  else ps ++ [(k, v)]

/-- Cypher `SET x += $m`: right-biased merge of `m` onto the stored map.
A nil parameter map merges nothing (the behavior the acceptance tests
exercise for resources declared without properties). -/
def propsPlus (base : PropList) (m : PropList) : PropList :=
  m.foldl (fun acc kv => insertProp acc kv.1 kv.2) base

/-- Cypher `SET n:l`: add a label unless already present. -/
def addLabel (ls : List String) (l : String) : List String :=
  if l ∈ ls then ls else ls ++ [l]

/-- `FOREACH (l in labels | SET n:$(l))`. -/
def setLabels (ls : List String) (new : List String) : List String :=
  new.foldl addLabel ls

/-- Pattern `(n {uuid: $uuid})`: the vertex's `uuid` property equals the
string parameter. -/
def nodeMatches (u : String) (n : DBNode) : Bool :=
  getProp n.props "uuid" == some (Scalar.str u)

/-- Pattern `-[r {uuid: $uuid}]-`: the edge's `uuid` property equals the
string parameter. -/
def edgeMatches (u : String) (e : DBEdge) : Bool :=
  getProp e.props "uuid" == some (Scalar.str u)

/-- `MATCH (n{uuid:$uuid}) RETURN n` consumed through `NextRecord`: the
first matching vertex. -/
def findNodeByUuid (g : Graph) (u : String) : Option DBNode :=
  g.nodes.find? (nodeMatches u)

/-- The Node Create mutation (node_resource.go:177-180):
`MERGE (n{uuid:$uuid}) FOREACH (l in $labels | SET n:$(l))
SET n += $properties`.  MERGE updates every vertex carrying the uuid if
any exists, else creates one whose only property is the uuid; the
declared labels are then added and the encoded properties merged. -/
def runNodeCreateQuery (g : Graph) (id : String) (labels : List String)
    (props : Option PropList) : Graph :=
  if g.nodes.any (nodeMatches id) then
    { g with nodes := g.nodes.map (fun n =>
        if nodeMatches id n then
          { n with labels := setLabels n.labels labels,
                   props := propsPlus n.props (props.getD []) }
        else n) }
  else
    { g with
      nodes := g.nodes ++ [{ nid := g.nextId,
                             labels := setLabels [] labels,
                             props := propsPlus [("uuid", Scalar.str id)] (props.getD []) }],
      nextId := g.nextId + 1 }

/-- The Node Update mutation (node_resource.go:231-235):
`MATCH (n{uuid:$uuid}) FOREACH (l in labels(n) | REMOVE n:$(l))
FOREACH (l in $labels | SET n:$(l)) SET n = \x7b\x7d
SET n += $properties, n.uuid = $uuid` applied to every matched vertex:
remove all current labels, add the declared ones, clear the property
map, merge the declared properties and re-set the uuid. -/
def runNodeUpdateQuery (g : Graph) (id : String) (labels : List String)
    (props : Option PropList) : Graph :=
  { g with nodes := g.nodes.map (fun n =>
      if nodeMatches id n then
        { n with labels := setLabels [] labels,
                 props := insertProp (propsPlus [] (props.getD []))
                   "uuid" (Scalar.str id) }
      else n) }

/-- The property-decoding loop of `NodeResource.read`
(node_resource.go:313-322), shared verbatim by the Relationship Read and
ImportState: drop the system key `uuid` and re-stringify every remaining
scalar with the `v` verb. -/
def decodeProps (ps : PropList) : List (String × String) :=
  (ps.filter (fun kv => kv.1 ≠ "uuid")).map (fun kv => (kv.1, sprintfScalar kv.2))

/-- The Node resource data model (node_resource.go:38-42). -/
structure NodeResourceModel where
  Labels : Attr (List (Attr String))
  Properties : PropsAttr
  ID : Attr String
deriving DecidableEq, Repr

/-- Outcome of one lifecycle operation: the backend graph afterwards,
the response diagnostics, the resource state written (none when the
operation aborted before `State.Set`), and the number of backend `Run`
invocations issued. -/
structure OpResult (σ : Type) where
  graph : Graph
  diags : Diags
  state : Option σ
  calls : Nat
deriving Repr

/-- `NodeResource.Create` (node_resource.go:153-189).  `runOk` is the
backend call's success; `id` stands for the freshly generated
`uuid.NewString()`.  The id is assigned to the model and the state
written only after the backend call succeeds. -/
def nodeCreate (runOk : Bool) (id : String) (g : Graph)
    (plan : NodeResourceModel) : OpResult NodeResourceModel :=
  let rl := ReadLabels plan.Labels
  if rl.2.isEmpty then
    let rp := readProperties plan.Properties
    if rp.2.isEmpty then
      if runOk then
        { graph := runNodeCreateQuery g id rl.1 rp.1,
          diags := [],
          state := some { plan with ID := Attr.value id },
          calls := 1 }
      else
        { graph := g,
          diags := [("failed to create the node", "backend error")],
          state := none, calls := 1 }
    else { graph := g, diags := rp.2, state := none, calls := 0 }
  else { graph := g, diags := rl.2, state := none, calls := 0 }

/-- `NodeResource.read` (node_resource.go:290-335): normalize null or
unknown labels and properties to null, fetch the vertex by uuid, then
reconstruct labels (unless both the prior state and the vertex agree on
absence) and properties (only when the vertex carries more than the
system property, and not when the prior state is null and the decoded
map empty). -/
def nodeReadAux (runOk : Bool) (g : Graph) (data0 : NodeResourceModel) :
    NodeResourceModel × Diags :=
  let id := data0.ID.valueString
  let data1 :=
    if data0.Labels.IsNull || data0.Labels.IsUnknown then
      { data0 with Labels := Attr.null } else data0
  let data2 :=
    if data1.Properties.IsNull || data1.Properties.IsUnknown then
      { data1 with Properties := Attr.null } else data1
  if runOk then
    match findNodeByUuid g id with
    | some node =>
      let data3 :=
        if data2.Labels.IsNull && node.labels.isEmpty then data2
        else { data2 with Labels := Attr.value (node.labels.map Attr.value) }
      let data4 :=
        if node.props.length > 1 then
          let tmp := decodeProps node.props
          if data3.Properties.IsNull && tmp.isEmpty then data3
          else { data3 with
                 Properties := Attr.value (tmp.map (fun kv => (kv.1, Attr.value kv.2))) }
        else data3
      (data4, [])
    | none => (data2, [("no node found", id)])
  else (data2, [("failed to read the node", "backend error")])

/-- `NodeResource.Read` (node_resource.go:191-206): run `read` on the
prior state and write the resulting model back unless it errored. -/
def nodeRead (runOk : Bool) (g : Graph) (state : NodeResourceModel) :
    OpResult NodeResourceModel :=
  let r := nodeReadAux runOk g state
  if r.2.isEmpty then
    { graph := g, diags := [], state := some r.1, calls := 1 }
  else
    { graph := g, diags := r.2, state := none, calls := 1 }

/-- `NodeResource.Update` (node_resource.go:208-248): validate labels
and properties, then issue the single replace mutation and write the
planned state back. -/
def nodeUpdate (runOk : Bool) (g : Graph) (plan : NodeResourceModel) :
    OpResult NodeResourceModel :=
  let id := plan.ID.valueString
  let rl := ReadLabels plan.Labels
  if rl.2.isEmpty then
    let rp := readProperties plan.Properties
    if rp.2.isEmpty then
      if runOk then
        { graph := runNodeUpdateQuery g id rl.1 rp.1, diags := [],
          state := some plan, calls := 1 }
      else
        { graph := g, diags := [("failed to update the node", "backend error")],
          state := none, calls := 1 }
    else { graph := g, diags := rp.2, state := none, calls := 0 }
  else { graph := g, diags := rl.2, state := none, calls := 0 }

/-- The Relationship resource data model (part_001:327-334).  The
source's `Type` field is spelled `typ` here, `Type` being reserved in
Lean. -/
structure RelationshipResourceModel where
  typ : Attr String
  StartNodeID : Attr String
  EndNodeID : Attr String
  Properties : PropsAttr
  ID : Attr String
deriving DecidableEq, Repr

/-- The Relationship Create mutation (part_001:416-418):
`OPTIONAL MATCH (nStart{uuid:$uuidStart}), (nEnd{uuid:$uuidEnd})
MERGE (nStart)-[r:$($type)]->(nEnd) SET r += $properties,
r.uuid = $uuid`.  When either optional match is empty the endpoint
variable is null and the MERGE silently creates nothing (the
OPTIONAL-MATCH policy the spec documents for this query); otherwise the
typed edge between the two endpoints is matched or created and the
properties and uuid stamped onto it. -/
def runRelCreateQuery (g : Graph) (id sU eU t : String)
    (props : Option PropList) : Graph :=
  match findNodeByUuid g sU, findNodeByUuid g eU with
  | some ns, some ne =>
    let stamp := fun (ps : PropList) =>
      insertProp (propsPlus ps (props.getD [])) "uuid" (Scalar.str id)
    if g.edges.any (fun e => e.src == ns.nid && e.dst == ne.nid && e.typ == t) then
      { g with edges := g.edges.map (fun e =>
          if e.src == ns.nid && e.dst == ne.nid && e.typ == t then
            { e with props := stamp e.props } else e) }
    else
      { g with edges := g.edges ++ [{ eid := g.nextId, src := ns.nid, dst := ne.nid,
                                      typ := t, props := stamp [] }],
               nextId := g.nextId + 1 }
  | _, _ => g

/-- `RelationshipResource.Create` (part_001:400-434): encode the
properties, issue the create mutation, and only then set the generated
id on the model and write the state. -/
def relCreate (runOk : Bool) (id : String) (g : Graph)
    (plan : RelationshipResourceModel) : OpResult RelationshipResourceModel :=
  let rp := readProperties plan.Properties
  if rp.2.isEmpty then
    if runOk then
      { graph := runRelCreateQuery g id plan.StartNodeID.valueString
          plan.EndNodeID.valueString plan.typ.valueString rp.1,
        diags := [], state := some { plan with ID := Attr.value id }, calls := 1 }
    else
      { graph := g,
        diags := [("failed to create the relationship", "backend error")],
        state := none, calls := 1 }
  else { graph := g, diags := rp.2, state := none, calls := 0 }

/-- The uuid property of the vertex with internal id `nid`, when it is a
string (the record field cast `.(string)` of the source). -/
def nodeUuidString (g : Graph) (nid : Nat) : Option String :=
  match g.nodes.find? (fun n => n.nid == nid) with
  | some n =>
    match getProp n.props "uuid" with
    | some (Scalar.str s) => some s
    | _ => none
  | none => none

/-- `RelationshipResource.ImportState` (part_001:563-620).  The query
`MATCH (n)-[r{uuid:$uuid}]->(m) RETURN \x7bstart_node_id:n.uuid,
end_node_id:n.uuid, r: r\x7d AS resp` returns, for the first matching
edge, the START vertex's uuid under BOTH record keys: the source
computes `end_node_id` from `n`, not from the matched end vertex `m`,
which is bound but never used.  The Go string cast on the record is
modelled as an error diagnostic when the uuid property is absent or not
a string (the source would panic there). -/
def relImportState (runOk : Bool) (g : Graph) (reqId : String) :
    OpResult RelationshipResourceModel :=
  let data0 : RelationshipResourceModel :=
    { typ := Attr.null, StartNodeID := Attr.null, EndNodeID := Attr.null,
      Properties := Attr.null, ID := Attr.value reqId }
  let data1 :=
    if data0.Properties.IsNull || data0.Properties.IsUnknown then
      { data0 with Properties := Attr.null } else data0
  if runOk then
    match g.edges.find? (edgeMatches reqId) with
    | some e =>
      match nodeUuidString g e.src with
      | some nUuid =>
        let data2 :=
          if e.props.length > 1 then
            let tmp := decodeProps e.props
            if data1.Properties.IsNull && tmp.isEmpty then data1
            else { data1 with
                   Properties := Attr.value (tmp.map (fun kv => (kv.1, Attr.value kv.2))) }
          else data1
        let data3 : RelationshipResourceModel := { data2 with
          typ := Attr.value e.typ,
          StartNodeID := Attr.value nUuid,
          EndNodeID := Attr.value nUuid }
        { graph := g, diags := [], state := some data3, calls := 1 }
      | none =>
        { graph := g, diags := [("panic", "record field is not a string")],
          state := none, calls := 1 }
    | none =>
      { graph := g, diags := [("no relationship found", reqId)],
        state := none, calls := 1 }
  else
    { graph := g, diags := [("failed to read the relationship", "backend error")],
      state := none, calls := 1 }

/-- The two resource implementations present in the codebase. -/
inductive ResourceKind where
  | node
  | relationship
deriving DecidableEq, Repr

/-- `Provider.Resources` (part_002:148-152): the resource constructors
registered with the framework — only `NewNodeResource`. -/
def providerResources : List ResourceKind := [ResourceKind.node]

/-- The fixed retry delay of `tryConnection` (part_002:134), in
milliseconds. -/
def retryDelayMs : Nat := 1000

/-- The retry loop of `tryConnection` (part_002:136-144).  `ok i` tells
whether `VerifyConnectivity` succeeds on attempt `i` (0-based);
`errNil` carries the current `err` variable (initially nil); the last
argument is the remaining iteration budget `maxAttempts - attempt`.
Returns whether the final `err` is nil, the number of
`VerifyConnectivity` calls, and the number of sleeps of the fixed
delay. -/
def tryConnLoop (ok : Nat → Bool) (errNil : Bool) (attempt : Nat) :
    Nat → Bool × Nat × Nat
  | 0 => (errNil, 0, 0)
  | r + 1 =>
    if ok attempt then (true, 1, 0)
    else
      let p := tryConnLoop ok false (attempt + 1) r
      (p.1, p.2.1 + 1, p.2.2 + 1)

/-- `tryConnection` (part_002:132-146): verify connectivity up to
`maxAttempts` times, sleeping the fixed delay after each failure, and
stop at the first success. -/
def tryConnection (ok : Nat → Bool) (maxAttempts : Nat) : Bool × Nat × Nat :=
  tryConnLoop ok true 0 maxAttempts

/-- `NewClient` (part_002:114-130): `driverOk` is the success of
`neo4j.NewDriverWithContext`; connectivity is then verified by
`tryConnection` with a ceiling of 3 attempts, and a session is produced
exactly when that returned a nil error.  The result is the session (if
any) paired with err-is-nil. -/
def NewClient (driverOk : Bool) (ok : Nat → Bool) : Option Unit × Bool :=
  if driverOk then
    let r := tryConnection ok 3
    if r.1 then (some (), r.1) else (none, r.1)
  else (none, false)

/-- A fully-known declared property map as a map attribute. -/
def toPropsAttr (ps : List (String × String)) : PropsAttr :=
  Attr.value (ps.map (fun kv => (kv.1, Attr.value kv.2)))

/-- The encoding `readProperties` performs on a fully-known map: type
every value with the int-then-float-then-string parse. -/
def encodeProps (ps : List (String × String)) : PropList :=
  ps.map (fun kv => (kv.1, parseScalar kv.2))

/-- The backend property map a fresh Create stores for declared map
`enc`: the system uuid, merged with the encoded properties. -/
def createNodeProps (id : String) (enc : PropList) : PropList :=
  propsPlus [("uuid", Scalar.str id)] enc

theorem readPropsFold (ps : List (String × String)) (acc : PropList) :
    (ps.map (fun kv => (kv.1, Attr.value kv.2))).foldl readPropertiesStep (acc, []) =
      (acc ++ encodeProps ps, []) := by
  induction ps generalizing acc with
  | nil => simp [encodeProps]
  | cons kv t ih =>
    simp only [List.map_cons, List.foldl_cons, readPropertiesStep, encodeProps,
      Attr.valueString]
    rw [ih]
    simp [encodeProps]

/-- On a fully-known declared map, `readProperties` reports no
diagnostics (in particular the dead reserved-key check adds none) and
returns the typed encoding. -/
theorem readProperties_known (ps : List (String × String)) :
    readProperties (toPropsAttr ps) = (some (encodeProps ps), []) := by
  have hinit :
      (if (List.any [] fun (kv : String × Attr String) => kv.1 == "uuid") = true then
        [("reserved key is set as property", "uuid is reserved")] else ([] : Diags)) = [] := by
    simp
  simp only [readProperties, toPropsAttr, hinit]
  rw [readPropsFold ps []]
  simp

theorem find_of_any_false {α : Type} (p : α → Bool) (l₁ l₂ : List α)
    (h : l₁.any p = false) : (l₁ ++ l₂).find? p = l₂.find? p := by
  induction l₁ with
  | nil => rfl
  | cons a t ih =>
    rw [List.any_cons, Bool.or_eq_false_iff] at h
    rw [List.cons_append, List.find?_cons_of_neg _ (by simp [h.1]), ih h.2]

theorem insertProp_fresh (ps : PropList) (k : String) (v : Scalar)
    (h : ps.any (fun kv => kv.1 == k) = false) :
    insertProp ps k v = ps ++ [(k, v)] := by
  simp [insertProp, h]

theorem propsPlus_of_fresh (base m : PropList)
    (hm : (m.map Prod.fst).Nodup)
    (hdisj : ∀ kv ∈ m, base.any (fun b => b.1 == kv.1) = false) :
    propsPlus base m = base ++ m := by
  induction m generalizing base with
  | nil => simp [propsPlus]
  | cons kv t ih =>
    simp only [propsPlus, List.foldl_cons]
    rw [insertProp_fresh base kv.1 kv.2 (hdisj kv (List.mem_cons_self kv t))]
    have hm' : (t.map Prod.fst).Nodup := (List.nodup_cons.mp hm).2
    have hhd : kv.1 ∉ t.map Prod.fst := (List.nodup_cons.mp hm).1
    have : propsPlus (base ++ [(kv.1, kv.2)]) t = (base ++ [(kv.1, kv.2)]) ++ t := by
      apply ih _ hm'
      intro kv' hkv'
      rw [List.any_append, Bool.or_eq_false_iff]
      refine ⟨hdisj kv' (List.mem_cons_of_mem kv hkv'), ?_⟩
      simp only [List.any_cons, List.any_nil, Bool.or_false]
      have : kv.1 ≠ kv'.1 := by
        intro hEq
        exact hhd (hEq ▸ List.mem_map_of_mem Prod.fst hkv')
      simp [this]
    simp only [propsPlus] at this ⊢
    rw [this, List.append_assoc]
    rfl

/-- Decoding undoes encoding on maps of canonical values without the
reserved key. -/
theorem decode_encode (P : List (String × String))
    (hkeys : ∀ kv ∈ P, kv.1 ≠ "uuid")
    (hcanon : ∀ kv ∈ P, canonicalValue kv.2 = true) :
    decodeProps (encodeProps P) = P := by
  induction P with
  | nil => rfl
  | cons kv t ih =>
    have hk : kv.1 ≠ "uuid" := hkeys kv (List.mem_cons_self kv t)
    have hc : sprintfScalar (parseScalar kv.2) = kv.2 := by
      have := hcanon kv (List.mem_cons_self kv t)
      simpa [canonicalValue] using this
    have ih' := ih (fun kv h => hkeys kv (List.mem_cons_of_mem _ h))
      (fun kv h => hcanon kv (List.mem_cons_of_mem _ h))
    simp only [decodeProps, encodeProps, List.map_cons, List.filter_cons,
      decide_not] at ih' ⊢
    simp [hk, hc, ih']

/-- C1: the claim states that every provider instance registers both the
Node and the Relationship resource constructors.  The code's
`Provider.Resources` returns only the Node constructor, so the
Relationship resource is never registered. -/
theorem C1_relationship_not_registered :
    providerResources = [ResourceKind.node] ∧
    ResourceKind.relationship ∉ providerResources := by decide

/-- C2: the claim states that a declared properties map containing the
reserved key "uuid" makes `readProperties` report a validation error and
abort before any backend call.  In the code the reserved-key check runs
on the `elements` map before it is populated, so it never fires: the map
containing "uuid" encodes without any diagnostic and Node Create issues
the backend call (propagating the declared "uuid"), instead of
aborting. -/
theorem C2_reserved_key_not_rejected :
    readProperties (toPropsAttr [("uuid", "x")]) =
      (some [("uuid", Scalar.str "x")], []) ∧
    (nodeCreate true "n-1" { nodes := [], edges := [], nextId := 0 }
        { Labels := Attr.null, Properties := toPropsAttr [("uuid", "x")],
          ID := Attr.null }).calls = 1 ∧
    (nodeCreate true "n-1" { nodes := [], edges := [], nextId := 0 }
        { Labels := Attr.null, Properties := toPropsAttr [("uuid", "x")],
          ID := Attr.null }).diags = [] := by decide

/-- The failing input for C3: two distinct vertices with uuids "a" and
"b" joined by the directed edge "r-1" of type "T". -/
def gAB : Graph :=
  { nodes := [ { nid := 0, labels := [], props := [("uuid", Scalar.str "a")] },
               { nid := 1, labels := [], props := [("uuid", Scalar.str "b")] } ],
    edges := [ { eid := 2, src := 0, dst := 1, typ := "T",
                 props := [("uuid", Scalar.str "r-1"), ("p", Scalar.str "v")] } ],
    nextId := 3 }

/-- The state Relationship ImportState writes for edge "r-1" of `gAB`:
both endpoint attributes carry the START vertex's uuid. -/
def importedAB : RelationshipResourceModel :=
  { typ := Attr.value "T", StartNodeID := Attr.value "a",
    EndNodeID := Attr.value "a",
    Properties := Attr.value [("p", Attr.value "v")],
    ID := Attr.value "r-1" }

/-- C3: the claim states that ImportState populates `end_node_id` with
the uuid of the edge's END vertex.  The import query returns the START
vertex's uuid under both record keys, so importing edge "r-1", which
runs from vertex "a" to vertex "b", sets end_node_id to "a" rather than
"b": type and properties are reconstructed, but the end endpoint is
wrong whenever the two endpoints differ. -/
theorem C3_import_end_node_id_from_start :
    (relImportState true gAB "r-1").state = some importedAB ∧
    importedAB.EndNodeID = Attr.value "a" ∧
    (Attr.value "a" : Attr String) ≠ Attr.value "b" := by decide

/-- C4 counterexample: the round-trip is not the identity on every map
free of the reserved key.  For the map with the single value "01"
(integer-parseable but not canonically spelled) the encode step stores
the integer 1 and the decode step re-stringifies it as "1". -/
theorem C4_counterexample_noncanonical :
    decodeProps (createNodeProps "n-1"
        ((readProperties (toPropsAttr [("a", "01")])).1.getD [])) = [("a", "1")] ∧
    [("a", "1")] ≠ [("a", "01")] := by decide

/-- C4 (amended): for property maps without the reserved key "uuid",
with unique keys (a Go map invariant) and all values canonical — the
re-stringification of each parsed value is the value itself, which holds
for every value a prior decode produced — encoding via `readProperties`
followed by merging onto the created vertex and decoding yields the
original map back, key for key. -/
theorem C4_roundtrip_canonical (P : List (String × String)) (id : String)
    (hkeys : ∀ kv ∈ P, kv.1 ≠ "uuid")
    (hnodup : (P.map Prod.fst).Nodup)
    (hcanon : ∀ kv ∈ P, canonicalValue kv.2 = true) :
    readProperties (toPropsAttr P) = (some (encodeProps P), []) ∧
    decodeProps (createNodeProps id (encodeProps P)) = P := by
  refine ⟨readProperties_known P, ?_⟩
  have hmapfst : (encodeProps P).map Prod.fst = P.map Prod.fst := by
    simp [encodeProps]
  have hfresh : propsPlus [("uuid", Scalar.str id)] (encodeProps P) =
      [("uuid", Scalar.str id)] ++ encodeProps P := by
    apply propsPlus_of_fresh
    · rw [hmapfst]; exact hnodup
    · intro kv hkv
      rcases List.mem_map.mp hkv with ⟨kv', hkv', rfl⟩
      simpa using (hkeys kv' hkv').symm
  rw [createNodeProps, hfresh]
  have hhead : decodeProps (("uuid", Scalar.str id) :: encodeProps P) =
      decodeProps (encodeProps P) := by
    simp [decodeProps, List.filter_cons]
  rw [List.singleton_append, hhead]
  exact decode_encode P hkeys hcanon

/-- Witness for C4 (amended) at the spec's own scenario map. -/
theorem C4_roundtrip_canonical_witness :
    readProperties (toPropsAttr [("foo", "100"), ("bar", "qux"), ("quux", "1.2")]) =
      (some (encodeProps [("foo", "100"), ("bar", "qux"), ("quux", "1.2")]), []) ∧
    decodeProps (createNodeProps "n-1"
        (encodeProps [("foo", "100"), ("bar", "qux"), ("quux", "1.2")])) =
      [("foo", "100"), ("bar", "qux"), ("quux", "1.2")] :=
  C4_roundtrip_canonical [("foo", "100"), ("bar", "qux"), ("quux", "1.2")] "n-1"
    (by decide) (by decide) (by decide)

theorem runNodeUpdateQuery_nodes (g : Graph) (id : String) (labels : List String)
    (props : Option PropList) :
    (runNodeUpdateQuery g id labels props).nodes = g.nodes.map (fun n =>
      if nodeMatches id n then
        { n with labels := setLabels [] labels,
                 props := insertProp (propsPlus [] (props.getD []))
                   "uuid" (Scalar.str id) }
      else n) := rfl

/-- C6: Node Update issues a single backend operation which, on every
vertex carrying the declared uuid, replaces the label set with exactly
the newly-declared labels (all current labels removed first), clears the
whole property map, and merges the new properties together with the
re-asserted uuid — the outcome depends only on the desired state, never
on the vertex's prior labels or properties, and unmatched vertices are
untouched. -/
theorem C6_update_full_replace (g : Graph) (plan : NodeResourceModel)
    (labels : List String) (props : Option PropList)
    (hl : ReadLabels plan.Labels = (labels, []))
    (hp : readProperties plan.Properties = (props, [])) :
    (nodeUpdate true g plan).calls = 1 ∧
    (∀ n ∈ g.nodes, nodeMatches plan.ID.valueString n = true →
      { n with labels := setLabels [] labels,
               props := insertProp (propsPlus [] (props.getD []))
                 "uuid" (Scalar.str plan.ID.valueString) } ∈
        (nodeUpdate true g plan).graph.nodes) ∧
    (∀ n ∈ g.nodes, nodeMatches plan.ID.valueString n = false →
      n ∈ (nodeUpdate true g plan).graph.nodes) := by
  have hres : nodeUpdate true g plan =
      { graph := runNodeUpdateQuery g plan.ID.valueString labels props,
        diags := [], state := some plan, calls := 1 } := by
    simp [nodeUpdate, hl, hp]
  refine ⟨by rw [hres], ?_, ?_⟩
  · intro n hn hm
    rw [hres]
    show _ ∈ (runNodeUpdateQuery g plan.ID.valueString labels props).nodes
    rw [runNodeUpdateQuery_nodes]
    have hmem := List.mem_map_of_mem (fun n =>
      if nodeMatches plan.ID.valueString n then
        { n with labels := setLabels [] labels,
                 props := insertProp (propsPlus [] (props.getD []))
                   "uuid" (Scalar.str plan.ID.valueString) }
      else n) hn
    simpa [hm] using hmem
  · intro n hn hm
    rw [hres]
    show _ ∈ (runNodeUpdateQuery g plan.ID.valueString labels props).nodes
    rw [runNodeUpdateQuery_nodes]
    have hmem := List.mem_map_of_mem (fun n =>
      if nodeMatches plan.ID.valueString n then
        { n with labels := setLabels [] labels,
                 props := insertProp (propsPlus [] (props.getD []))
                   "uuid" (Scalar.str plan.ID.valueString) }
      else n) hn
    simpa [hm] using hmem

/-- The pre-update vertex of the C6 witness: uuid "u", stale labels and
a stale property. -/
def oldU : DBNode :=
  { nid := 0, labels := ["old1", "old2"],
    props := [("uuid", Scalar.str "u"), ("p", Scalar.int 7)] }

/-- Witness graph for C6. -/
def gU : Graph := { nodes := [oldU], edges := [], nextId := 1 }

/-- Witness plan for C6: one new label and one new property. -/
def planU : NodeResourceModel :=
  { Labels := Attr.value [Attr.value "newL"],
    Properties := toPropsAttr [("q", "qux")],
    ID := Attr.value "u" }

/-- Witness for C6: the stale labels and the stale property are gone;
the vertex carries exactly the new label, the new property and the
uuid. -/
theorem C6_update_full_replace_witness :
    (nodeUpdate true gU planU).calls = 1 ∧
    ({ nid := 0, labels := ["newL"],
       props := [("q", Scalar.str "qux"), ("uuid", Scalar.str "u")] } : DBNode) ∈
      (nodeUpdate true gU planU).graph.nodes := by
  have h := C6_update_full_replace gU planU ["newL"] (some [("q", Scalar.str "qux")])
    (by decide) (by decide)
  refine ⟨h.1, ?_⟩
  have h2 := h.2.1 oldU (by decide) (by decide)
  exact h2

/-- C7: when either endpoint uuid matches no vertex, Relationship Create
completes without any diagnostic, leaves the edge set (indeed the whole
graph) unchanged, and still writes the planned state with the generated
id — the missing endpoint is silently tolerated rather than reported. -/
theorem C7_missing_endpoint_silent (g : Graph) (plan : RelationshipResourceModel)
    (id : String)
    (hp : (readProperties plan.Properties).2 = [])
    (hmiss : findNodeByUuid g plan.StartNodeID.valueString = none ∨
             findNodeByUuid g plan.EndNodeID.valueString = none) :
    (relCreate true id g plan).diags = [] ∧
    (relCreate true id g plan).graph = g ∧
    (relCreate true id g plan).state = some { plan with ID := Attr.value id } := by
  have hq : runRelCreateQuery g id plan.StartNodeID.valueString
      plan.EndNodeID.valueString plan.typ.valueString
      (readProperties plan.Properties).1 = g := by
    unfold runRelCreateQuery
    rcases hmiss with h | h
    · rcases he : findNodeByUuid g plan.EndNodeID.valueString with _ | ne <;>
        simp [h, he]
    · rcases hs : findNodeByUuid g plan.StartNodeID.valueString with _ | ns <;>
        simp [hs, h]
  refine ⟨?_, ?_, ?_⟩ <;> simp [relCreate, hp, hq]

/-- Witness plan for C7: endpoints that exist in no graph. -/
def planRelW : RelationshipResourceModel :=
  { typ := Attr.value "T", StartNodeID := Attr.value "missing-a",
    EndNodeID := Attr.value "missing-b", Properties := Attr.null,
    ID := Attr.null }

/-- Witness for C7 on the empty graph. -/
theorem C7_missing_endpoint_silent_witness :
    (relCreate true "r-7" { nodes := [], edges := [], nextId := 0 } planRelW).diags = [] ∧
    (relCreate true "r-7" { nodes := [], edges := [], nextId := 0 } planRelW).graph =
      { nodes := [], edges := [], nextId := 0 } ∧
    (relCreate true "r-7" { nodes := [], edges := [], nextId := 0 } planRelW).state =
      some { planRelW with ID := Attr.value "r-7" } :=
  C7_missing_endpoint_silent { nodes := [], edges := [], nextId := 0 } planRelW "r-7"
    (by decide) (Or.inl (by decide))

/-- C10: when the backend mutation of Node Create fails (after labels
and properties validated), the operation reports the backend error, no
state at all is written — in particular the generated id is never
assigned to the model — and the graph is unchanged. -/
theorem C10_failed_create_no_state (g : Graph) (plan : NodeResourceModel)
    (id : String)
    (hl : (ReadLabels plan.Labels).2 = [])
    (hp : (readProperties plan.Properties).2 = []) :
    (nodeCreate false id g plan).state = none ∧
    (nodeCreate false id g plan).diags = [("failed to create the node", "backend error")] ∧
    (nodeCreate false id g plan).graph = g := by
  refine ⟨?_, ?_, ?_⟩ <;> simp [nodeCreate, hl, hp]

/-- Witness for C10 on a trivial plan and the empty graph. -/
theorem C10_failed_create_no_state_witness :
    (nodeCreate false "n-10" { nodes := [], edges := [], nextId := 0 }
        { Labels := Attr.null, Properties := Attr.null, ID := Attr.null }).state = none ∧
    (nodeCreate false "n-10" { nodes := [], edges := [], nextId := 0 }
        { Labels := Attr.null, Properties := Attr.null, ID := Attr.null }).diags =
      [("failed to create the node", "backend error")] ∧
    (nodeCreate false "n-10" { nodes := [], edges := [], nextId := 0 }
        { Labels := Attr.null, Properties := Attr.null, ID := Attr.null }).graph =
      { nodes := [], edges := [], nextId := 0 } :=
  C10_failed_create_no_state { nodes := [], edges := [], nextId := 0 }
    { Labels := Attr.null, Properties := Attr.null, ID := Attr.null } "n-10"
    (by decide) (by decide)

theorem splitDigits_all (cs : List Char) (h : allDigits cs = true) :
    splitDigits cs = (cs, []) := by
  induction cs with
  | nil => rfl
  | cons c t ih =>
    simp only [allDigits, List.all_cons, Bool.and_eq_true] at h
    have ht : allDigits t = true := h.2
    simp [splitDigits, h.1, ih ht]

/-- Every string the integer parse accepts is also accepted by the
float parse (sign plus digits is valid float syntax), so the order of
the two attempts matters. -/
theorem parseFloat_of_parseInt (s : String) (n : Int) (h : parseInt s = some n) :
    (parseFloat s).isSome = true := by
  rcases hs : splitSign s.data with ⟨neg, ds⟩
  unfold parseInt at h
  rw [hs] at h
  simp only at h
  rcases hcond : (ds.isEmpty || !allDigits ds) with _ | _
  · have hnd := Bool.or_eq_false_iff.mp hcond
    have hall : allDigits ds = true := by
      have h2 := hnd.2
      simpa using h2
    unfold parseFloat
    rw [hs]
    simp only
    rw [splitDigits_all ds hall]
    simp [hnd.1]
  · rw [hcond] at h
    simp at h

/-- C8: the codec's parse priority is Int, then Float, then String, and
it is deterministic: an integer-parseable value — which is always also
float-parseable — becomes an integer, a float-parseable one becomes a
float, anything else stays a string; in particular "100" always becomes
the integer 100 and "1.2" always becomes the float 1.2. -/
theorem C8_parse_priority :
    (∀ s n, parseInt s = some n →
      (parseFloat s).isSome = true ∧ parseScalar s = Scalar.int n) ∧
    (∀ s f, parseInt s = none → parseFloat s = some f →
      parseScalar s = Scalar.float f) ∧
    (∀ s, parseInt s = none → parseFloat s = none →
      parseScalar s = Scalar.str s) ∧
    parseScalar "100" = Scalar.int 100 ∧
    parseScalar "1.2" = Scalar.float { neg := false, mant := 12, exp := -1 } := by
  refine ⟨?_, ?_, ?_, by decide, by decide⟩
  · intro s n h
    exact ⟨parseFloat_of_parseInt s n h, by simp [parseScalar, h]⟩
  · intro s f hi hf
    simp [parseScalar, hi, hf]
  · intro s hi hf
    simp [parseScalar, hi, hf]

/-- Witness for C8 at "100": the integer parse succeeds, the float
parse would as well, and the int wins. -/
theorem C8_parse_priority_witness :
    (parseFloat "100").isSome = true ∧ parseScalar "100" = Scalar.int 100 :=
  C8_parse_priority.1 "100" 100 (by decide)

/-- C9: connection bootstrap performs at most 3 connectivity attempts
separated by the fixed delay; if all 3 fail it returns the failure and
`NewClient` produces no session; at the first success (attempt `i`,
everything before it failing) it stops after `i + 1` attempts and a
session is produced. -/
theorem C9_bounded_retry (ok : Nat → Bool) :
    (tryConnection ok 3).2.1 ≤ 3 ∧
    retryDelayMs = 1000 ∧
    ((∀ i, i < 3 → ok i = false) →
      (tryConnection ok 3).1 = false ∧ (NewClient true ok).1 = none) ∧
    (∀ i, i < 3 → ok i = true → (∀ j, j < i → ok j = false) →
      (tryConnection ok 3).1 = true ∧ (tryConnection ok 3).2.1 = i + 1 ∧
      (NewClient true ok).1 = some ()) := by
  refine ⟨?_, rfl, ?_, ?_⟩
  · by_cases h0 : ok 0 <;> by_cases h1 : ok 1 <;> by_cases h2 : ok 2 <;>
      simp [tryConnection, tryConnLoop, h0, h1, h2]
  · intro hall
    have h0 := hall 0 (by omega)
    have h1 := hall 1 (by omega)
    have h2 := hall 2 (by omega)
    constructor <;> simp [NewClient, tryConnection, tryConnLoop, h0, h1, h2]
  · intro i hi hoki hprev
    interval_cases i
    · refine ⟨?_, ?_, ?_⟩ <;> simp [NewClient, tryConnection, tryConnLoop, hoki]
    · have h0 := hprev 0 (by omega)
      refine ⟨?_, ?_, ?_⟩ <;> simp [NewClient, tryConnection, tryConnLoop, h0, hoki]
    · have h0 := hprev 0 (by omega)
      have h1 := hprev 1 (by omega)
      refine ⟨?_, ?_, ?_⟩ <;> simp [NewClient, tryConnection, tryConnLoop, h0, h1, hoki]

/-- Witness for C9: with the first two attempts failing and the third
succeeding, exactly 3 verification calls are made and a session is
produced; and with every attempt failing, no session is produced. -/
theorem C9_bounded_retry_witness :
    ((tryConnection (fun i => i == 2) 3).1 = true ∧
      (tryConnection (fun i => i == 2) 3).2.1 = 2 + 1 ∧
      (NewClient true (fun i => i == 2)).1 = some ()) ∧
    ((tryConnection (fun _ => false) 3).1 = false ∧
      (NewClient true (fun _ => false)).1 = none) := by
  constructor
  · exact (C9_bounded_retry (fun i => i == 2)).2.2.2 2 (by omega) (by decide)
      (by intro j hj; interval_cases j <;> decide)
  · exact (C9_bounded_retry (fun _ => false)).2.2.1 (by intro i hi; decide)

/-- When the fetched vertex carries no declared property (only the
system uuid, or nothing), `NodeResource.read` succeeds and leaves the
properties attribute exactly as the null-normalized prior state: null
stays null, a present (possibly empty) map stays itself. -/
theorem nodeReadAux_props_small (g : Graph) (data : NodeResourceModel) (node : DBNode)
    (hfind : findNodeByUuid g data.ID.valueString = some node)
    (hlen : node.props.length ≤ 1) :
    ∃ d, nodeReadAux true g data = (d, []) ∧
      d.Properties = (if data.Properties.IsNull || data.Properties.IsUnknown
                      then Attr.null else data.Properties) := by
  unfold nodeReadAux
  have hlen' : ¬ node.props.length > 1 := by omega
  by_cases hL : (data.Labels.IsNull || data.Labels.IsUnknown) = true <;>
    by_cases hP : (data.Properties.IsNull || data.Properties.IsUnknown) = true <;>
    simp only [hL, hP, Bool.false_eq_true, eq_self_iff_true, if_true, if_false,
      hfind, hlen', gt_iff_lt] <;>
    split <;>
    refine ⟨_, rfl, ?_⟩ <;>
    simp [hP]

/-- C5: absent and empty property maps round-trip distinctly through the
Node lifecycle.  Creating with properties null then reading yields
properties null (not the empty map); creating with the present-but-empty
map then reading yields the empty map (not null).  `id` stands for the
generated uuid, fresh by hypothesis. -/
theorem C5_null_vs_empty_roundtrip (g : Graph) (plan : NodeResourceModel) (id : String)
    (hfresh : g.nodes.any (nodeMatches id) = false)
    (hl : (ReadLabels plan.Labels).2 = []) :
    (plan.Properties = Attr.null →
      (nodeCreate true id g plan).state = some { plan with ID := Attr.value id } ∧
      ∃ d, (nodeRead true (nodeCreate true id g plan).graph
          { plan with ID := Attr.value id }).state = some d ∧
        d.Properties = Attr.null) ∧
    (plan.Properties = Attr.value [] →
      (nodeCreate true id g plan).state = some { plan with ID := Attr.value id } ∧
      ∃ d, (nodeRead true (nodeCreate true id g plan).graph
          { plan with ID := Attr.value id }).state = some d ∧
        d.Properties = Attr.value []) := by
  obtain ⟨labels, hlab⟩ : ∃ ls, ReadLabels plan.Labels = (ls, []) :=
    ⟨(ReadLabels plan.Labels).1, by rw [← hl]⟩
  have hnd : nodeMatches id (DBNode.mk g.nextId (setLabels [] labels)
      [("uuid", Scalar.str id)]) = true := by
    simp [nodeMatches, getProp]
  constructor
  · intro hP
    have hrp : readProperties plan.Properties = (none, []) := by rw [hP]; rfl
    have hcreate : nodeCreate true id g plan =
        OpResult.mk
          (Graph.mk (g.nodes ++ [DBNode.mk g.nextId
              (setLabels [] labels) [("uuid", Scalar.str id)]])
            g.edges (g.nextId + 1))
          [] (some { plan with ID := Attr.value id }) 1 := by
      simp [nodeCreate, hlab, hrp, runNodeCreateQuery, hfresh, propsPlus]
    refine ⟨by rw [hcreate], ?_⟩
    have hfind : findNodeByUuid (nodeCreate true id g plan).graph
        (({ plan with ID := Attr.value id } : NodeResourceModel).ID.valueString) =
        some (DBNode.mk g.nextId (setLabels [] labels)
          [("uuid", Scalar.str id)]) := by
      rw [hcreate]
      simp only [findNodeByUuid, Attr.valueString]
      rw [find_of_any_false _ _ _ hfresh]
      rw [List.find?_cons_of_pos _ hnd]
    obtain ⟨d, hread, hdP⟩ := nodeReadAux_props_small (nodeCreate true id g plan).graph
      { plan with ID := Attr.value id } _ hfind (by simp)
    refine ⟨d, ?_, ?_⟩
    · simp only [nodeRead, hread]
      simp
    · simp only [hP, Attr.IsNull, Attr.IsUnknown] at hdP
      simpa using hdP
  · intro hP
    have hrp : readProperties plan.Properties = (some [], []) := by rw [hP]; rfl
    have hcreate : nodeCreate true id g plan =
        OpResult.mk
          (Graph.mk (g.nodes ++ [DBNode.mk g.nextId
              (setLabels [] labels) [("uuid", Scalar.str id)]])
            g.edges (g.nextId + 1))
          [] (some { plan with ID := Attr.value id }) 1 := by
      simp [nodeCreate, hlab, hrp, runNodeCreateQuery, hfresh, propsPlus]
    refine ⟨by rw [hcreate], ?_⟩
    have hfind : findNodeByUuid (nodeCreate true id g plan).graph
        (({ plan with ID := Attr.value id } : NodeResourceModel).ID.valueString) =
        some (DBNode.mk g.nextId (setLabels [] labels)
          [("uuid", Scalar.str id)]) := by
      rw [hcreate]
      simp only [findNodeByUuid, Attr.valueString]
      rw [find_of_any_false _ _ _ hfresh]
      rw [List.find?_cons_of_pos _ hnd]
    obtain ⟨d, hread, hdP⟩ := nodeReadAux_props_small (nodeCreate true id g plan).graph
      { plan with ID := Attr.value id } _ hfind (by simp)
    refine ⟨d, ?_, ?_⟩
    · simp only [nodeRead, hread]
      simp
    · simp only [hP, Attr.IsNull, Attr.IsUnknown] at hdP
      simpa using hdP

/-- Witness plan for C5 with absent (null) properties. -/
def planNull5 : NodeResourceModel :=
  { Labels := Attr.null, Properties := Attr.null, ID := Attr.null }

/-- Witness plan for C5 with present-but-empty properties. -/
def planEmpty5 : NodeResourceModel :=
  { Labels := Attr.null, Properties := Attr.value [], ID := Attr.null }

/-- Witness for C5 on the empty graph: null stays null and the empty
map stays the empty map across Create then Read. -/
theorem C5_null_vs_empty_roundtrip_witness :
    (nodeCreate true "n-5" (Graph.mk [] [] 0) planNull5).state =
      some { planNull5 with ID := Attr.value "n-5" } ∧
    (nodeCreate true "n-5" (Graph.mk [] [] 0) planEmpty5).state =
      some { planEmpty5 with ID := Attr.value "n-5" } ∧
    ((nodeRead true (nodeCreate true "n-5" (Graph.mk [] [] 0) planNull5).graph
        { planNull5 with ID := Attr.value "n-5" }).state.map
      (fun d => d.Properties)) = some Attr.null ∧
    ((nodeRead true (nodeCreate true "n-5" (Graph.mk [] [] 0) planEmpty5).graph
        { planEmpty5 with ID := Attr.value "n-5" }).state.map
      (fun d => d.Properties)) = some (Attr.value []) := by
  obtain ⟨hs1, d1, h1, h1P⟩ :=
    (C5_null_vs_empty_roundtrip (Graph.mk [] [] 0) planNull5 "n-5"
      (by decide) (by decide)).1 rfl
  obtain ⟨hs2, d2, h2, h2P⟩ :=
    (C5_null_vs_empty_roundtrip (Graph.mk [] [] 0) planEmpty5 "n-5"
      (by decide) (by decide)).2 rfl
  refine ⟨hs1, hs2, ?_, ?_⟩
  · rw [h1]
    simp [h1P]
  · rw [h2]
    simp [h2P]
